import Mathlib

/-!
Verification of the Streamlit Worldle geography guessing game
(`streamlit_app.py`) against its specification.

The development shallowly embeds the program:
* geodesy (`haversine`, `get_flat_earth_bearing`, `MAX_DISTANCE`) over ℝ,
  with Python's `math.atan2` modelled by an explicit piecewise `atan2`;
* the distance-table construction `get_distances` over an ordered catalog
  of location records;
* the per-rerun game logic of `main` (win check, loss check, guess
  submission guard, name resolution, locale selection) as pure functions
  on an explicit session state.
-/

namespace Worldle

/-! ## Definitions

### Geodesy: `haversine`, `get_flat_earth_bearing`, `MAX_DISTANCE` -/

/-- Python `math.radians`: degrees to radians. -/
noncomputable def radians (x : ℝ) : ℝ := x * (Real.pi / 180)

/-- Python `math.degrees`: radians to degrees. -/
noncomputable def degrees (x : ℝ) : ℝ := x * (180 / Real.pi)

/-- Python `math.atan2 y x`: the angle of the point `(x, y)` in `(-π, π]`,
modelled piecewise exactly as the C library function behaves on reals. -/
noncomputable def atan2 (y x : ℝ) : ℝ :=
  if 0 < x then Real.arctan (y / x)
  else if x < 0 ∧ 0 ≤ y then Real.arctan (y / x) + Real.pi
  else if x < 0 ∧ y < 0 then Real.arctan (y / x) - Real.pi
  else if x = 0 ∧ 0 < y then Real.pi / 2
  else if x = 0 ∧ y < 0 then -(Real.pi / 2)
  else 0

/-- The intermediate value `a` of the haversine formula in `haversine`:
`a = sin(delta_lat/2)**2 + cos(lat1)*cos(lat2)*sin(delta_lon/2)**2`
after the four inputs have been converted to radians. -/
noncomputable def haversine_a (lat1 lon1 lat2 lon2 : ℝ) : ℝ :=
  Real.sin ((radians lat2 - radians lat1) / 2) ^ 2 +
    Real.cos (radians lat1) * Real.cos (radians lat2) *
      Real.sin ((radians lon2 - radians lon1) / 2) ^ 2

/-- `haversine(lat1, lon1, lat2, lon2, units="km")` from the source:
`c = 2*asin(sqrt(a))`, `r = 6371 if units == "km" else 3956`, returns `c*r`. -/
noncomputable def haversine (lat1 lon1 lat2 lon2 : ℝ) (units : String := "km") : ℝ :=
  2 * Real.arcsin (Real.sqrt (haversine_a lat1 lon1 lat2 lon2)) *
    (if units = "km" then 6371 else 3956)

/-- `get_flat_earth_bearing(lat1, lon1, lat2, lon2)` from the source:
`degrees(atan2(lon2 - lon1, lat2 - lat1))`. -/
noncomputable def get_flat_earth_bearing (lat1 lon1 lat2 lon2 : ℝ) : ℝ :=
  degrees (atan2 (lon2 - lon1) (lat2 - lat1))

/-- Module-level constant `MAX_DISTANCE = haversine(0, 0, 180, 0, "km")`. -/
noncomputable def MAX_DISTANCE : ℝ := haversine 0 0 180 0 "km"

/-! ### Catalog records and the distance table -/

/-- One row of the `all_locations` GeoDataFrame, restricted to the fields
the game logic reads: the stable id `fid` (the index column), the centroid
latitude/longitude, and the localized name columns as an association list
from column name (e.g. `"name_en"`) to display string. -/
structure Location where
  fid : Nat
  lat : ℝ
  lon : ℝ
  names : List (String × String)

/-- A row of the enriched table produced by `get_distances`: the original
record plus the `distance` and `direction` columns. -/
structure DistRow where
  loc : Location
  distance : ℝ
  direction : ℝ

/-- `get_distances(fid)` from the source: look the target up by id
(`result.loc[fid, "centroid"]`, a `KeyError` — modelled as `none` — when
absent), then add per-row `distance = helper_haversine(row, target)` and
`direction = helper_bearing(row, target)` via a row-wise `apply`, which
keeps the catalog's row order. -/
noncomputable def get_distances (catalog : List Location) (fid : Nat) :
    Option (List DistRow) :=
  (catalog.find? (fun r => r.fid == fid)).map fun target =>
    catalog.map fun r =>
      { loc := r
        distance := haversine r.lat r.lon target.lat target.lon "km"
        direction := get_flat_earth_bearing r.lat r.lon target.lat target.lon }

/-! ### Name resolution -/

/-- Reading the locale column of one record (`row[locale_col]`); `none`
models a missing column. -/
def getName (r : Location) (col : String) : Option String :=
  (r.names.find? (fun p => p.1 == col)).map Prod.snd

/-- `guess_fid = all_locations.index[all_locations[locale_col] == guess][0]`
from the source: the positions whose locale column equals the submitted
string, taking the first matching id; the `IndexError` raised by `[0]` on
an empty match is modelled as `none`. -/
def resolveGuess (catalog : List Location) (col : String) (name : String) :
    Option Nat :=
  ((catalog.filter (fun r => getName r col == some name)).map Location.fid).head?

/-! ### Game session state machine

`main` reruns top to bottom on every interaction.  With a session present,
the run (restricted to game logic) is:

1. `already_won = random_location["fid"] in guesses`; if so the WON screen
   is shown and `st.stop()` ends the run (no further code executes);
2. otherwise, if `len(guesses) == 6` the LOST screen is shown and
   `st.stop()` ends the run;
3. otherwise the guess form is rendered; if `not has_guessed or
   guess_fid in guesses` the run warns and stops with no state change;
4. otherwise `guesses.append(guess_fid)` and the page reruns.
-/

/-- The three display states of a session. -/
inductive GameStatus
  | active
  | won
  | lost
deriving DecidableEq

/-- The display state a rerun of `main` reaches for a given target and
guess list: the `already_won` branch, then the 6-guess loss branch, then
the active guessing form, in source order. -/
def reportStatus (target : Nat) (guesses : List Nat) : GameStatus :=
  if target ∈ guesses then .won
  else if guesses.length = 6 then .lost
  else .active

/-- The guess list after one rerun of `main` that submits `guessFid` with
form flag `hasGuessed`: the three stop guards in source order, then the
append. -/
def submitGuess (target : Nat) (guesses : List Nat) (hasGuessed : Bool)
    (guessFid : Nat) : List Nat :=
  if target ∈ guesses then guesses
  else if guesses.length = 6 then guesses
  else if ¬hasGuessed ∨ guessFid ∈ guesses then guesses
  else guesses ++ [guessFid]

/-- Session states reachable from initialization (`guesses = []`, a fresh
target) by any sequence of rerun submissions.  A reset destroys the session,
so the state after a reset is again the initial state for a fresh target. -/
inductive Reachable : Nat → List Nat → Prop
  | init (t : Nat) : Reachable t []
  | step (t : Nat) (g : List Nat) (hg : Bool) (fid : Nat) :
      Reachable t g → Reachable t (submitGuess t g hg fid)

/-- The full per-session state kept in `st.session_state`: the target id
(`random_location["fid"]`), the enriched table (`all_locations`) and the
guess list. -/
structure Session where
  target : Nat
  table : List DistRow
  guesses : List Nat

/-- One rerun of `main` acting on the whole session: the submission path
(lines 309–314) only ever appends to `guesses`; the target and the table
are written only at initialization. -/
def stepSession (s : Session) (hasGuessed : Bool) (guessFid : Nat) : Session :=
  { s with guesses := submitGuess s.target s.guesses hasGuessed guessFid }

/-- One rerun of `main` taking the submitted display-name string: the name
is resolved through `resolveGuess`; when resolution fails the run raises
before any state mutation, leaving the session unchanged. -/
def submitByName (catalog : List Location) (col : String) (s : Session)
    (hasGuessed : Bool) (name : String) : Session :=
  match resolveGuess catalog col name with
  | none => s
  | some fid => stepSession s hasGuessed fid

/-! ### Locale selection -/

/-- The `LOCALES` dict from the source, in its literal key order. -/
def LOCALES : List (String × String) :=
  [("ar", "name_ar"), ("bn", "name_bn"), ("de", "name_de"), ("en", "name_en"),
   ("es", "name_es"), ("fr", "name_fr"), ("el", "name_el"), ("hi", "name_hi"),
   ("hu", "name_hu"), ("id", "name_id"), ("it", "name_it"), ("ja", "name_ja"),
   ("ko", "name_ko"), ("nl", "name_nl"), ("pl", "name_pl"), ("pt", "name_pt"),
   ("ru", "name_ru"), ("sv", "name_sv"), ("tr", "name_tr"), ("vi", "name_vi"),
   ("zh", "name_zh")]

/-- `locale_list = list(LOCALES.keys())`. -/
def localeKeys : List String := LOCALES.map Prod.fst

/-- `locale_index`: starts at 3; `locale_list.index(query_locales[0])`
replaces it when the query-parameter code is found, and the
`ValueError`/`TypeError` of a missing parameter or unknown code is caught,
keeping 3. -/
def queryLocaleIndex (q : Option String) : Nat :=
  match q with
  | none => 3
  | some c =>
    match localeKeys.findIdx? (fun k => k == c) with
    | some i => i
    | none => 3

/-- `selected_locale`: the selectbox option at `locale_index` (the index is
always in bounds, so the `getD` default is never used). -/
def selectedLocale (q : Option String) : String :=
  localeKeys.getD (queryLocaleIndex q) ""

/-- `locale_col = LOCALES.get(selected_locale, "en")` from the source. -/
def locale_col (sel : String) : String :=
  ((LOCALES.find? (fun p => p.1 == sel)).map Prod.snd).getD "en"

/-- The locale column `main` ends up reading for a given query-parameter
locale code. -/
def localeColForQuery (q : Option String) : String :=
  locale_col (selectedLocale q)

/-! ### Proximity display -/

/-- Python `int()` applied to a real: truncation toward zero. -/
noncomputable def pyInt (x : ℝ) : ℤ := if 0 ≤ x then ⌊x⌋ else ⌈x⌉

/-- `distance_percentage = (1 - (distance / MAX_DISTANCE)) * 100`. -/
noncomputable def distance_percentage (distance : ℝ) : ℝ :=
  (1 - distance / MAX_DISTANCE) * 100

/-- The three proximity medals rendered for a guess. -/
inductive ProxIcon
  | gold
  | silver
  | bronze
deriving DecidableEq

/-- The `prox_icon` chosen in `main`:
`if int(distance_percentage) == 100` gold,
`elif int(distance_percentage) > 50` silver, else bronze. -/
noncomputable def prox_icon (pct : ℝ) : ProxIcon :=
  if pyInt pct = 100 then .gold
  else if 50 < pyInt pct then .silver
  else .bronze

/-- Sample records used by the concrete witnesses below. -/
noncomputable def locAlpha : Location :=
  { fid := 1, lat := 0, lon := 0, names := [("name_en", "Alpha"), ("name_fr", "Alphe")] }

/-- Second sample record. -/
noncomputable def locBeta : Location :=
  { fid := 2, lat := 0, lon := 90, names := [("name_en", "Beta"), ("name_fr", "Bete")] }

/-- Third sample record, sharing its English display name with `locBeta`. -/
noncomputable def locBeta2 : Location :=
  { fid := 3, lat := 0, lon := 180, names := [("name_en", "Beta"), ("name_fr", "Beta2")] }

/-- A small concrete catalog in a fixed order. -/
noncomputable def sampleCatalog : List Location := [locAlpha, locBeta, locBeta2]

/-! ## Theorems -/

/-- Identical points give `a = 0`. -/
lemma haversine_a_self (lat lon : ℝ) : haversine_a lat lon lat lon = 0 := by
  simp [haversine_a]

/-- Squared sine of a half-difference does not depend on the order. -/
lemma sin_sq_half_sub_comm (x y : ℝ) :
    Real.sin ((x - y) / 2) ^ 2 = Real.sin ((y - x) / 2) ^ 2 := by
  have h : (x - y) / 2 = -((y - x) / 2) := by ring
  rw [h, Real.sin_neg, neg_sq]

/-- `a` is symmetric in its two points. -/
lemma haversine_a_comm (lat1 lon1 lat2 lon2 : ℝ) :
    haversine_a lat1 lon1 lat2 lon2 = haversine_a lat2 lon2 lat1 lon1 := by
  unfold haversine_a
  rw [sin_sq_half_sub_comm (radians lat2) (radians lat1),
    sin_sq_half_sub_comm (radians lon2) (radians lon1)]
  ring

/-- The haversine distance from a point to itself is zero. -/
lemma haversine_self (lat lon : ℝ) (units : String) :
    haversine lat lon lat lon units = 0 := by
  simp [haversine, haversine_a_self]

/-- The haversine distance is symmetric in its two points. -/
lemma haversine_comm (lat1 lon1 lat2 lon2 : ℝ) (units : String) :
    haversine lat1 lon1 lat2 lon2 units = haversine lat2 lon2 lat1 lon1 units := by
  unfold haversine
  rw [haversine_a_comm]

/-- Claim C5: for every point `p`, `haversine p p = 0`, and for every pair of
points `a`, `b` (any units), `haversine a b = haversine b a`. Stated over all
real coordinates, which includes all valid latitude/longitude pairs. -/
theorem haversine_zero_and_symm (lat lon lat1 lon1 lat2 lon2 : ℝ) (units : String) :
    haversine lat lon lat lon units = 0 ∧
    haversine lat1 lon1 lat2 lon2 units = haversine lat2 lon2 lat1 lon1 units :=
  ⟨haversine_self lat lon units, haversine_comm lat1 lon1 lat2 lon2 units⟩

/-- Product of cosines expressed through the half-sum and half-difference. -/
lemma cos_mul_cos_eq (r1 r2 : ℝ) :
    Real.cos r1 * Real.cos r2 =
      Real.cos ((r1 + r2) / 2) ^ 2 * Real.cos ((r2 - r1) / 2) ^ 2 -
        Real.sin ((r1 + r2) / 2) ^ 2 * Real.sin ((r2 - r1) / 2) ^ 2 := by
  have h1 : r1 = (r1 + r2) / 2 - (r2 - r1) / 2 := by ring
  have h2 : r2 = (r1 + r2) / 2 + (r2 - r1) / 2 := by ring
  calc Real.cos r1 * Real.cos r2
      = Real.cos ((r1 + r2) / 2 - (r2 - r1) / 2) *
          Real.cos ((r1 + r2) / 2 + (r2 - r1) / 2) := by rw [← h1, ← h2]
    _ = _ := by rw [Real.cos_sub, Real.cos_add]; ring

/-- The haversine intermediate value lies in `[0, 1]` for arbitrary real
angles `r1`, `r2` and any `v` with `v ^ 2 ≤ 1` in place of the longitude
half-difference sine. -/
lemma haversine_a_shape_bounds (r1 r2 v : ℝ) (hv : v ^ 2 ≤ 1) :
    0 ≤ Real.sin ((r2 - r1) / 2) ^ 2 + Real.cos r1 * Real.cos r2 * v ^ 2 ∧
      Real.sin ((r2 - r1) / 2) ^ 2 + Real.cos r1 * Real.cos r2 * v ^ 2 ≤ 1 := by
  have hv0 : 0 ≤ v ^ 2 := sq_nonneg v
  have key := cos_mul_cos_eq r1 r2
  rw [key]
  set m := (r1 + r2) / 2 with hm
  set d := (r2 - r1) / 2 with hd
  have hs1 : Real.sin m ^ 2 ≤ 1 := Real.sin_sq_le_one m
  have hc1 : Real.cos m ^ 2 ≤ 1 := Real.cos_sq_le_one m
  have hsv : Real.sin m ^ 2 * v ^ 2 ≤ 1 := mul_le_one₀ hs1 hv0 hv
  have hcv : Real.cos m ^ 2 * v ^ 2 ≤ 1 := mul_le_one₀ hc1 hv0 hv
  have pyth := Real.sin_sq_add_cos_sq d
  constructor
  · have t1 : 0 ≤ Real.sin d ^ 2 * (1 - Real.sin m ^ 2 * v ^ 2) :=
      mul_nonneg (sq_nonneg _) (by linarith)
    have t2 : 0 ≤ Real.cos m ^ 2 * Real.cos d ^ 2 * v ^ 2 := by positivity
    nlinarith [t1, t2]
  · have u1 : Real.cos m ^ 2 * Real.cos d ^ 2 * v ^ 2 ≤ Real.cos d ^ 2 := by
      nlinarith [sq_nonneg (Real.cos d)]
    have u2 : 0 ≤ Real.sin m ^ 2 * Real.sin d ^ 2 * v ^ 2 := by positivity
    nlinarith [u1, u2]

/-- Claim C9: `haversine` is total: for all real inputs (valid or not) the
intermediate `a` satisfies `0 ≤ a ≤ 1`, hence `sqrt` receives a nonnegative
argument and `asin` receives an argument in `[-1, 1]` — the Python `math`
domain checks can never fail, so the function always returns a value. -/
theorem haversine_domain_safe (lat1 lon1 lat2 lon2 : ℝ) :
    0 ≤ haversine_a lat1 lon1 lat2 lon2 ∧
    haversine_a lat1 lon1 lat2 lon2 ≤ 1 ∧
    -1 ≤ Real.sqrt (haversine_a lat1 lon1 lat2 lon2) ∧
    Real.sqrt (haversine_a lat1 lon1 lat2 lon2) ≤ 1 := by
  obtain ⟨h0, h1⟩ := haversine_a_shape_bounds (radians lat1) (radians lat2)
    (Real.sin ((radians lon2 - radians lon1) / 2)) (Real.sin_sq_le_one _)
  have ha : haversine_a lat1 lon1 lat2 lon2 =
      Real.sin ((radians lat2 - radians lat1) / 2) ^ 2 +
        Real.cos (radians lat1) * Real.cos (radians lat2) *
          Real.sin ((radians lon2 - radians lon1) / 2) ^ 2 := rfl
  rw [ha]
  refine ⟨h0, h1, ?_, Real.sqrt_le_one.mpr h1⟩
  have := Real.sqrt_nonneg (Real.sin ((radians lat2 - radians lat1) / 2) ^ 2 +
    Real.cos (radians lat1) * Real.cos (radians lat2) *
      Real.sin ((radians lon2 - radians lon1) / 2) ^ 2)
  linarith

/-- `MAX_DISTANCE` evaluates to `6371 * π` (≈ 20015.09 km). -/
lemma max_distance_eq : MAX_DISTANCE = 6371 * Real.pi := by
  have h180 : radians 180 = Real.pi := by unfold radians; field_simp
  have h0 : radians 0 = 0 := by unfold radians; ring
  unfold MAX_DISTANCE haversine haversine_a
  rw [h180, h0]
  norm_num [Real.sin_pi_div_two, Real.arcsin_one]
  ring

/-- `MAX_DISTANCE` is positive. -/
lemma max_distance_pos : 0 < MAX_DISTANCE := by
  rw [max_distance_eq]
  positivity

/-- Claim C1: a session whose guess list has length 6 and contains the
target reports WON, not LOST; and the LOST branch is reached only when the
win check (`target ∈ guesses`) has already failed. -/
theorem won_over_lost (target : Nat) (guesses : List Nat)
    (hlen : guesses.length = 6) (hmem : target ∈ guesses) :
    reportStatus target guesses = .won ∧
    reportStatus target guesses ≠ .lost ∧
    ∀ t : Nat, ∀ g : List Nat, reportStatus t g = .lost → t ∉ g := by
  refine ⟨by simp [reportStatus, hmem], by simp [reportStatus, hmem], ?_⟩
  intro t g hrep hmem'
  simp [reportStatus, hmem'] at hrep

/-- Witness for C1 at a concrete session: six guesses, the last correct. -/
theorem won_over_lost_witness :
    reportStatus 1 [2, 3, 4, 5, 6, 1] = .won ∧
    reportStatus 1 [2, 3, 4, 5, 6, 1] ≠ .lost :=
  ⟨(won_over_lost 1 [2, 3, 4, 5, 6, 1] (by decide) (by decide)).1,
   (won_over_lost 1 [2, 3, 4, 5, 6, 1] (by decide) (by decide)).2.1⟩

/-- Claim C2: every reachable guess list has length at most 6; and once the
length is 6 with the target absent, the session reports LOST and every
further submission returns the guess list unchanged. -/
theorem guesses_bounded_and_lost_absorbing (t : Nat) (g : List Nat)
    (h : Reachable t g) :
    g.length ≤ 6 ∧
    (g.length = 6 → t ∉ g →
      reportStatus t g = .lost ∧
      ∀ (hg : Bool) (fid : Nat), submitGuess t g hg fid = g) := by
  have hlen : g.length ≤ 6 := by
    induction h with
    | init => simp
    | step g' hg fid hr ih =>
      unfold submitGuess
      by_cases hwon : t ∈ g'
      · rw [if_pos hwon]; exact ih
      · rw [if_neg hwon]
        by_cases hsix : g'.length = 6
        · rw [if_pos hsix]; exact ih
        · rw [if_neg hsix]
          by_cases hdup : ¬hg ∨ fid ∈ g'
          · rw [if_pos hdup]; exact ih
          · rw [if_neg hdup]
            simp only [List.length_append, List.length_cons, List.length_nil]
            omega
  refine ⟨hlen, fun hsix hnot => ⟨?_, ?_⟩⟩
  · simp [reportStatus, hsix, hnot]
  · intro hg fid
    simp [submitGuess, hsix, hnot]

/-- Witness for C2 at a concrete reachable state of length 6. -/
theorem guesses_bounded_and_lost_absorbing_witness :
    ([2, 3, 4, 5, 6, 7] : List Nat).length ≤ 6 ∧
    reportStatus 1 [2, 3, 4, 5, 6, 7] = .lost ∧
    submitGuess 1 [2, 3, 4, 5, 6, 7] true 8 = [2, 3, 4, 5, 6, 7] := by
  have h2 : Reachable 1 [2] := by
    have := Reachable.step 1 [] true 2 (Reachable.init 1)
    simpa [submitGuess] using this
  have h3 : Reachable 1 [2, 3] := by
    have := Reachable.step 1 [2] true 3 h2
    simpa [submitGuess] using this
  have h4 : Reachable 1 [2, 3, 4] := by
    have := Reachable.step 1 [2, 3] true 4 h3
    simpa [submitGuess] using this
  have h5 : Reachable 1 [2, 3, 4, 5] := by
    have := Reachable.step 1 [2, 3, 4] true 5 h4
    simpa [submitGuess] using this
  have h6 : Reachable 1 [2, 3, 4, 5, 6] := by
    have := Reachable.step 1 [2, 3, 4, 5] true 6 h5
    simpa [submitGuess] using this
  have h7 : Reachable 1 [2, 3, 4, 5, 6, 7] := by
    have := Reachable.step 1 [2, 3, 4, 5, 6] true 7 h6
    simpa [submitGuess] using this
  obtain ⟨hle, hrest⟩ := guesses_bounded_and_lost_absorbing 1 [2, 3, 4, 5, 6, 7] h7
  obtain ⟨hlost, hrefuse⟩ := hrest (by decide) (by decide)
  exact ⟨hle, hlost, hrefuse true 8⟩

/-- Submitting the same id a second time never changes the guess list. -/
lemma submitGuess_idem (t : Nat) (g : List Nat) (fid : Nat) :
    submitGuess t (submitGuess t g true fid) true fid = submitGuess t g true fid := by
  by_cases hwon : t ∈ g
  · simp [submitGuess, hwon]
  · by_cases hsix : g.length = 6
    · simp [submitGuess, hwon, hsix]
    · by_cases hdup : fid ∈ g
      · simp [submitGuess, hwon, hsix, hdup]
      · have h1 : submitGuess t g true fid = g ++ [fid] := by
          simp [submitGuess, hwon, hsix, hdup]
        rw [h1]
        unfold submitGuess
        by_cases hwon' : t ∈ g ++ [fid]
        · rw [if_pos hwon']
        · rw [if_neg hwon']
          by_cases hsix' : (g ++ [fid]).length = 6
          · rw [if_pos hsix']
          · rw [if_neg hsix']
            have hmem : (¬true = true ∨ fid ∈ g ++ [fid]) := Or.inr (by simp)
            rw [if_pos hmem]

/-- Claim C3: in an ACTIVE session (target not yet guessed, fewer than six
guesses), one rerun submitting `guessFid` leaves the whole session state —
guesses, target and distance table — unchanged exactly when the id is
already among the guesses or no submission was made; and a second
submission of the same resolved id never changes the guess list. -/
theorem submit_reject_iff (s : Session) (hg : Bool) (fid : Nat)
    (hactive1 : s.target ∉ s.guesses) (hactive2 : s.guesses.length ≠ 6) :
    (stepSession s hg fid = s ↔ (hg = false ∨ fid ∈ s.guesses)) ∧
    (stepSession s hg fid).target = s.target ∧
    (stepSession s hg fid).table = s.table ∧
    stepSession (stepSession s true fid) true fid = stepSession s true fid := by
  refine ⟨?_, rfl, rfl, ?_⟩
  · unfold stepSession submitGuess
    rw [if_neg hactive1, if_neg hactive2]
    constructor
    · intro heq
      by_contra hcon
      push_neg at hcon
      obtain ⟨hg', hfid⟩ := hcon
      rw [if_neg (by simp [hg', hfid])] at heq
      have : s.guesses ++ [fid] = s.guesses := congrArg Session.guesses heq
      have hlen := congrArg List.length this
      simp at hlen
    · intro hcond
      rw [if_pos (by rcases hcond with h | h
                     · simp [h]
                     · exact Or.inr h)]
  · show stepSession { s with guesses := submitGuess s.target s.guesses true fid } true fid = _
    unfold stepSession
    simp only
    rw [submitGuess_idem]

/-- Witness for C3 at a concrete ACTIVE session: resubmitting the already
guessed id 2 is rejected with every session field unchanged. -/
theorem submit_reject_iff_witness :
    (stepSession ⟨1, [], [2]⟩ true 2 = ⟨1, [], [2]⟩ ↔
      (true = false ∨ 2 ∈ ([2] : List Nat))) ∧
    (stepSession ⟨1, [], [2]⟩ true 2).target = 1 ∧
    (stepSession ⟨1, [], [2]⟩ true 2).table = [] ∧
    stepSession (stepSession ⟨1, [], [2]⟩ true 2) true 2 =
      stepSession ⟨1, [], [2]⟩ true 2 :=
  submit_reject_iff ⟨1, [], [2]⟩ true 2 (by decide) (by decide)

/-- Claim C7: a submitted display name matching no record in the selected
locale column does not resolve (no silent resolution to any id): the
resolution step yields no id — the rejected submission — and the rerun
leaves the session state unchanged. -/
theorem invalid_guess_rejected (catalog : List Location) (col name : String)
    (s : Session) (hg : Bool)
    (h : ∀ r ∈ catalog, getName r col ≠ some name) :
    resolveGuess catalog col name = none ∧
    submitByName catalog col s hg name = s := by
  have hres : resolveGuess catalog col name = none := by
    unfold resolveGuess
    have hfil : catalog.filter (fun r => getName r col == some name) = [] := by
      rw [List.filter_eq_nil_iff]
      intro r hr
      simp [h r hr]
    rw [hfil]
    rfl
  refine ⟨hres, ?_⟩
  unfold submitByName
  rw [hres]

/-- Witness for C7: the name "Atlantis" matches nothing in the sample
catalog, resolution fails, and the session is untouched. -/
theorem invalid_guess_rejected_witness :
    resolveGuess sampleCatalog "name_en" "Atlantis" = none ∧
    submitByName sampleCatalog "name_en" ⟨1, [], []⟩ true "Atlantis" = ⟨1, [], []⟩ :=
  invalid_guess_rejected sampleCatalog "name_en" "Atlantis" ⟨1, [], []⟩ true
    (by intro r hr
        simp only [sampleCatalog, locAlpha, locBeta, locBeta2,
          List.mem_cons, List.not_mem_nil, or_false] at hr
        rcases hr with rfl | rfl | rfl <;> simp [getName])

/-- Claim C10: resolution returns the id of the first record in catalog
order whose selected-locale name equals the submitted string; a later
record sharing the same display name (with a different id) can never be the
resolution result. -/
theorem resolve_first_match (pre : List Location) (r : Location)
    (rest : List Location) (col name : String)
    (hpre : ∀ p ∈ pre, getName p col ≠ some name)
    (hr : getName r col = some name) :
    resolveGuess (pre ++ r :: rest) col name = some r.fid ∧
    ∀ r2 ∈ rest, getName r2 col = some name → r2.fid ≠ r.fid →
      resolveGuess (pre ++ r :: rest) col name ≠ some r2.fid := by
  have hres : resolveGuess (pre ++ r :: rest) col name = some r.fid := by
    unfold resolveGuess
    rw [List.filter_append]
    have hfil : pre.filter (fun x => getName x col == some name) = [] := by
      rw [List.filter_eq_nil_iff]
      intro p hp
      simp [hpre p hp]
    rw [hfil, List.nil_append, List.filter_cons_of_pos (by simp [hr])]
    rfl
  refine ⟨hres, ?_⟩
  intro r2 _ _ hne
  rw [hres]
  simp [hne.symm]

/-- Witness for C10: in the sample catalog, the records with ids 2 and 3
share the English name "Beta"; resolution yields id 2 and never id 3. -/
theorem resolve_first_match_witness :
    resolveGuess ([locAlpha] ++ locBeta :: [locBeta2]) "name_en" "Beta" = some locBeta.fid ∧
    ∀ r2 ∈ [locBeta2], getName r2 "name_en" = some "Beta" → r2.fid ≠ locBeta.fid →
      resolveGuess ([locAlpha] ++ locBeta :: [locBeta2]) "name_en" "Beta" ≠ some r2.fid :=
  resolve_first_match [locAlpha] locBeta [locBeta2] "name_en" "Beta"
    (by intro p hp
        simp only [List.mem_cons, List.not_mem_nil, or_false] at hp
        subst hp
        simp [getName, locAlpha])
    (by simp [getName, locBeta])

/-- Claim C4: for a target id present in the catalog, `get_distances`
succeeds and yields one row per catalog record in catalog order, where each
row's `distance` is the haversine distance from the record's centroid to
the target's centroid and its `direction` is
`degrees(atan2(lon2 - lon1, lat2 - lat1))` from the record's centroid to
the target's centroid; the target's own row has `distance = 0`. -/
theorem get_distances_spec (catalog : List Location) (fid : Nat) (t : Location)
    (hfind : catalog.find? (fun r => r.fid == fid) = some t) :
    ∃ rows, get_distances catalog fid = some rows ∧
      rows.map DistRow.loc = catalog ∧
      (∀ row ∈ rows,
        row.distance = haversine row.loc.lat row.loc.lon t.lat t.lon "km" ∧
        row.direction = degrees (atan2 (t.lon - row.loc.lon) (t.lat - row.loc.lat))) ∧
      (∀ row ∈ rows, row.loc = t → row.distance = 0) ∧
      (∃ row ∈ rows, row.loc = t) := by
  refine ⟨catalog.map fun r =>
      { loc := r
        distance := haversine r.lat r.lon t.lat t.lon "km"
        direction := get_flat_earth_bearing r.lat r.lon t.lat t.lon },
    ?_, ?_, ?_, ?_, ?_⟩
  · unfold get_distances
    rw [hfind]
    rfl
  · rw [List.map_map]
    exact List.map_id catalog
  · intro row hrow
    rw [List.mem_map] at hrow
    obtain ⟨r, _, rfl⟩ := hrow
    exact ⟨rfl, rfl⟩
  · intro row hrow heq
    rw [List.mem_map] at hrow
    obtain ⟨r, _, rfl⟩ := hrow
    have hr : r = t := heq
    rw [hr]
    exact haversine_self t.lat t.lon "km"
  · have ht : t ∈ catalog := List.mem_of_find?_eq_some hfind
    exact ⟨_, List.mem_map_of_mem _ ht, rfl⟩

/-- Witness for C4 on the sample catalog with target id 1. -/
theorem get_distances_spec_witness :
    ∃ rows, get_distances sampleCatalog 1 = some rows ∧
      rows.map DistRow.loc = sampleCatalog ∧
      (∀ row ∈ rows,
        row.distance = haversine row.loc.lat row.loc.lon locAlpha.lat locAlpha.lon "km" ∧
        row.direction =
          degrees (atan2 (locAlpha.lon - row.loc.lon) (locAlpha.lat - row.loc.lat))) ∧
      (∀ row ∈ rows, row.loc = locAlpha → row.distance = 0) ∧
      (∃ row ∈ rows, row.loc = locAlpha) :=
  get_distances_spec sampleCatalog 1 locAlpha rfl

/-- `findIdx?` of an equality test fails on a list not containing the key. -/
lemma findIdx_not_mem (l : List String) (a : String) (h : a ∉ l) :
    l.findIdx? (fun k => k == a) = none := by
  induction l with
  | nil => rfl
  | cons x xs ih =>
    have hx : (x == a) = false := by
      simp only [beq_eq_false_iff_ne, ne_eq]
      intro hxa
      exact h (hxa ▸ List.mem_cons_self x xs)
    simp [List.findIdx?_cons, hx, ih (fun hmem => h (List.mem_cons_of_mem x hmem))]

/-- Claim C8: a query-parameter locale code outside the supported set falls
back to the default locale `en`, so the default column `name_en` is read;
a supported code selects its own locale column. -/
theorem locale_fallback (code : String) :
    (code ∉ localeKeys → localeColForQuery (some code) = "name_en") ∧
    (∀ col, (code, col) ∈ LOCALES → localeColForQuery (some code) = col) := by
  constructor
  · intro hnot
    have hidx : queryLocaleIndex (some code) = 3 := by
      simp only [queryLocaleIndex, findIdx_not_mem localeKeys code hnot]
    unfold localeColForQuery selectedLocale
    rw [hidx]
    decide
  · intro col hmem
    fin_cases hmem <;> decide

/-- Witness for C8: the unsupported code "zz" yields the default column,
and the supported code "fr" yields the French column. -/
theorem locale_fallback_witness :
    localeColForQuery (some "zz") = "name_en" ∧
    localeColForQuery (some "fr") = "name_fr" :=
  ⟨(locale_fallback "zz").1 (by decide),
   (locale_fallback "fr").2 "name_fr" (by decide)⟩

/-- Counterexample for C6 as stated: at distance `0.495 * MAX_DISTANCE` the
proximity percentage is `50.5`, which is greater than `50`, yet the code
displays the bronze icon, not silver — because the comparison is made on
`int(distance_percentage)`, which truncates `50.5` to `50`. -/
theorem prox_tier_cex :
    distance_percentage (0.495 * MAX_DISTANCE) = 50.5 ∧
    (50 : ℝ) < distance_percentage (0.495 * MAX_DISTANCE) ∧
    prox_icon (distance_percentage (0.495 * MAX_DISTANCE)) ≠ ProxIcon.silver ∧
    prox_icon (distance_percentage (0.495 * MAX_DISTANCE)) = ProxIcon.bronze := by
  have hM : MAX_DISTANCE ≠ 0 := ne_of_gt max_distance_pos
  have hpct : distance_percentage (0.495 * MAX_DISTANCE) = 50.5 := by
    unfold distance_percentage
    rw [mul_div_assoc, div_self hM]
    norm_num
  have hfloor : ⌊(50.5 : ℝ)⌋ = 50 := by norm_num
  have hicon : prox_icon (50.5 : ℝ) = ProxIcon.bronze := by
    unfold prox_icon pyInt
    rw [if_pos (by norm_num : (0:ℝ) ≤ 50.5), hfloor]
    norm_num
  rw [hpct]
  refine ⟨rfl, by norm_num, ?_, hicon⟩
  rw [hicon]
  intro hcon
  exact ProxIcon.noConfusion hcon

/-- Claim C6 (amended): the proximity percentage is
`(1 - distance / MAX_DISTANCE) * 100` with `MAX_DISTANCE` the haversine
distance between `(0,0)` and `(180,0)`; the tier is chosen on the
truncated integer percentage: gold exactly at 100%, silver exactly when
`51 ≤ percentage < 100` (not merely `> 50`), bronze exactly when the
percentage is below 51. -/
theorem prox_formula_and_tiers (d : ℝ) (h0 : 0 ≤ d) (h1 : d ≤ MAX_DISTANCE) :
    distance_percentage d = (1 - d / haversine 0 0 180 0 "km") * 100 ∧
    (prox_icon (distance_percentage d) = ProxIcon.gold ↔
      distance_percentage d = 100) ∧
    (prox_icon (distance_percentage d) = ProxIcon.silver ↔
      51 ≤ distance_percentage d ∧ distance_percentage d < 100) ∧
    (prox_icon (distance_percentage d) = ProxIcon.bronze ↔
      distance_percentage d < 51) := by
  have hM := max_distance_pos
  set p := distance_percentage d with hp
  have hp0 : 0 ≤ p := by
    rw [hp]
    unfold distance_percentage
    have hle : d / MAX_DISTANCE ≤ 1 := (div_le_one hM).mpr h1
    nlinarith
  have hp100 : p ≤ 100 := by
    rw [hp]
    unfold distance_percentage
    have hge : 0 ≤ d / MAX_DISTANCE := div_nonneg h0 hM.le
    nlinarith
  have hpy : pyInt p = ⌊p⌋ := by unfold pyInt; rw [if_pos hp0]
  have key100 : ⌊p⌋ = 100 ↔ p = 100 := by
    constructor
    · intro h
      have hle : (⌊p⌋ : ℝ) ≤ p := Int.floor_le p
      rw [h] at hle
      push_cast at hle
      linarith
    · intro h
      rw [h]
      norm_num
  have key51 : 50 < ⌊p⌋ ↔ (51 : ℝ) ≤ p := by
    rw [show ((50 : ℤ) < ⌊p⌋ ↔ (51 : ℤ) ≤ ⌊p⌋) from by omega, Int.le_floor]
    norm_num
  refine ⟨by rw [hp]; rfl, ?_, ?_, ?_⟩
  · unfold prox_icon
    rw [hpy]
    by_cases hg : ⌊p⌋ = 100
    · rw [if_pos hg]
      simp [key100.mp hg]
    · rw [if_neg hg]
      have hne : p ≠ 100 := fun hcon => hg (key100.mpr hcon)
      by_cases hs : 50 < ⌊p⌋
      · rw [if_pos hs]
        simp [hne]
      · rw [if_neg hs]
        simp [hne]
  · unfold prox_icon
    rw [hpy]
    by_cases hg : ⌊p⌋ = 100
    · rw [if_pos hg]
      have := key100.mp hg
      constructor
      · intro hcon
        exact absurd hcon (by simp)
      · intro ⟨_, hlt⟩
        linarith
    · rw [if_neg hg]
      have h100 : p < 100 :=
        lt_of_le_of_ne hp100 (fun hcon => hg (key100.mpr hcon))
      by_cases hs : 50 < ⌊p⌋
      · rw [if_pos hs]
        simp only [true_iff]
        exact ⟨key51.mp hs, h100⟩
      · rw [if_neg hs]
        constructor
        · intro hcon
          exact absurd hcon (by simp)
        · intro ⟨h51, _⟩
          exact absurd (key51.mpr h51) hs
  · unfold prox_icon
    rw [hpy]
    by_cases hg : ⌊p⌋ = 100
    · rw [if_pos hg]
      have hpeq := key100.mp hg
      constructor
      · intro hcon
        exact absurd hcon (by simp)
      · intro hlt
        linarith
    · rw [if_neg hg]
      by_cases hs : 50 < ⌊p⌋
      · rw [if_pos hs]
        have h51 := key51.mp hs
        constructor
        · intro hcon
          exact absurd hcon (by simp)
        · intro hlt
          linarith
      · rw [if_neg hs]
        simp only [true_iff]
        by_contra hcon
        push_neg at hcon
        exact hs (key51.mpr hcon)

/-- Witness for the amended C6 at distance 0: the percentage is 100 and the
icon is gold. -/
theorem prox_formula_and_tiers_witness :
    distance_percentage 0 = (1 - 0 / haversine 0 0 180 0 "km") * 100 ∧
    (prox_icon (distance_percentage 0) = ProxIcon.gold ↔
      distance_percentage 0 = 100) ∧
    (prox_icon (distance_percentage 0) = ProxIcon.silver ↔
      51 ≤ distance_percentage 0 ∧ distance_percentage 0 < 100) ∧
    (prox_icon (distance_percentage 0) = ProxIcon.bronze ↔
      distance_percentage 0 < 51) :=
  prox_formula_and_tiers 0 le_rfl max_distance_pos.le

end Worldle
